import Mathlib

/-!
# Verification of the AppleTalk/Ethernet WebSocket bridge

A shallow embedding of the bridging engine of `scripts/appletalk_ethernet_bridge.py`:
frame classification (`is_appletalk`, `is_do_ping`), the hardware-address codec
(`mac_bytes_to_str`, `mac_str_to_bytes`), the per-epoch session-identity state machine
(`send_init`, `tap_to_ws_step`), the bounded tap-read queue (`put_nowait`, `read_ready`)
and the reconnect loop (`loopBody`).

Python `bytes` values are embedded as `List Nat` (every element < 256 in the source's
domain), Python `str` values as `List Char`, and a raised `ValueError` as `Except.error`.
-/

set_option maxRecDepth 10000

deriving instance DecidableEq for Except

/-- Byte access `pkt[i]`: every use in the source is guarded by a length check, so the
default value is never observable. -/
def getB (pkt : List Nat) (i : Nat) : Nat :=
  pkt.getD i 0

/-- The 16-bit big-endian field at bytes 12-13: `(pkt[12] << 8) | pkt[13]` (lines 32, 50). -/
def ethertypeField (pkt : List Nat) : Nat :=
  (getB pkt 12 <<< 8) ||| getB pkt 13

/-- The embedded EtherType of a SNAP frame: `(pkt[20] << 8) | pkt[21]` (line 41). -/
def snapEthertype (pkt : List Nat) : Nat :=
  (getB pkt 20 <<< 8) ||| getB pkt 21

/-- Source `is_appletalk` (lines 27-42): AppleTalk (EtherType 0x809B) or AARP (0x80F3), either
Ethernet II or SNAP-encapsulated (LLC AA:AA:03, OUI 00:00:00, same embedded EtherType). -/
def is_appletalk (pkt : List Nat) : Bool :=
  if pkt.length < 14 then false
  else if 0x0600 ≤ ethertypeField pkt then
    ethertypeField pkt == 0x809B || ethertypeField pkt == 0x80F3
  else if pkt.length < 22 then false
  else
    ((pkt.drop 14).take 3 == [0xAA, 0xAA, 0x03]) &&
    ((pkt.drop 17).take 3 == [0x00, 0x00, 0x00]) &&
    (snapEthertype pkt == 0x809B || snapEthertype pkt == 0x80F3)

/-- Python `bytes.lower()` on one byte: ASCII uppercase letters map to lowercase (line 64). -/
def byteLower (b : Nat) : Nat :=
  if 65 ≤ b ∧ b ≤ 90 then b + 32 else b

/-- The byte string `b"ping"`. -/
def pingBytes : List Nat :=
  [112, 105, 110, 103]

/-- Whether `needle` is a prefix of `hay` (bytewise). -/
def listStartsWith : List Nat → List Nat → Bool
  | [], _ => true
  | _ :: _, [] => false
  | a :: as, b :: bs => a == b && listStartsWith as bs

/-- Python's `needle in hay` on byte strings: contiguous-subsequence containment. -/
def containsSeq (needle : List Nat) : List Nat → Bool
  | [] => listStartsWith needle []
  | b :: bs => listStartsWith needle (b :: bs) || containsSeq needle bs

/-- LLC control-field width (lines 59-60): `2 if (ctrl & 0x01) == 0 else 1`. -/
def llcCtrlLen (pkt : List Nat) : Nat :=
  if getB pkt 16 &&& 0x01 == 0 then 2 else 1

/-- Source `is_do_ping` (lines 44-65): heuristic filter for the remote infrastructure's
diagnostic "ping" frames.  The Python set test `{dsap, ssap} != {0x70, 0x69}` is the
unordered-pair comparison written out below (0x70 and 0x69 are distinct, so the sets are
equal iff the bytes are the pair in either order). -/
def is_do_ping (pkt : List Nat) : Bool :=
  if pkt.length < 20 then false
  else if 1500 ≤ ethertypeField pkt then false
  else if !((getB pkt 14 == 0x70 && getB pkt 15 == 0x69) ||
            (getB pkt 14 == 0x69 && getB pkt 15 == 0x70)) then false
  else
    containsSeq pingBytes (((pkt.drop (16 + llcCtrlLen pkt)).take 4).map byteLower)

/-- Claim-side restatement of the `isProtocolFrame` contract, following the spec's words
(section 4.1): at least 14 bytes, and either an Ethernet II EtherType ≥ 0x0600 equal to
one of the two protocol values, or a length field < 0x0600 with at least 22 bytes, the
LLC SNAP magic AA:AA:03 at bytes 14-16, a zero OUI at bytes 17-19 and an embedded
EtherType equal to one of the same two values. -/
def spec_isProtocolFrame (pkt : List Nat) : Bool :=
  decide (14 ≤ pkt.length) &&
  ((decide (0x0600 ≤ ethertypeField pkt) &&
      (ethertypeField pkt == 0x809B || ethertypeField pkt == 0x80F3)) ||
   (decide (ethertypeField pkt < 0x0600) && decide (22 ≤ pkt.length) &&
      ((pkt.drop 14).take 3 == [0xAA, 0xAA, 0x03]) &&
      ((pkt.drop 17).take 3 == [0x00, 0x00, 0x00]) &&
      (snapEthertype pkt == 0x809B || snapEthertype pkt == 0x80F3)))

/-- Claim-side control-field width, following the spec's words: 1 byte when the low bit
of byte 16 is set, else 2 bytes. -/
def spec_ctrlLen (pkt : List Nat) : Nat :=
  if getB pkt 16 &&& 0x01 == 1 then 1 else 2

/-- Claim-side restatement of the `isDiagnosticPing` contract, following the spec's words
(section 4.1): length ≥ 20, 802.3 length field < 1500, DSAP/SSAP unordered pair equal to
`(0x70, 0x69)`, and the 4 bytes after the control field, case-folded, contain `"ping"`. -/
def spec_isDiagnosticPing (pkt : List Nat) : Bool :=
  decide (20 ≤ pkt.length) &&
  decide (ethertypeField pkt < 1500) &&
  ((getB pkt 14 == 0x70 && getB pkt 15 == 0x69) ||
   (getB pkt 14 == 0x69 && getB pkt 15 == 0x70)) &&
  containsSeq pingBytes (((pkt.drop (16 + spec_ctrlLen pkt)).take 4).map byteLower)

/-- A crafted 802.3/LLC frame: length field 16, DSAP/SSAP = 0x70/0x69, U-frame control
byte 0x03, payload `b"PING"`. -/
def pingExampleFrame : List Nat :=
  [1, 2, 3, 4, 5, 6, 7, 8, 9, 10, 11, 12, 0, 16, 0x70, 0x69, 0x03, 80, 73, 78, 71]

/-- The same frame with the payload changed to `b"data"`. -/
def dataExampleFrame : List Nat :=
  [1, 2, 3, 4, 5, 6, 7, 8, 9, 10, 11, 12, 0, 16, 0x70, 0x69, 0x03, 100, 97, 116, 97]

theorem llcCtrlLen_eq_spec (pkt : List Nat) : llcCtrlLen pkt = spec_ctrlLen pkt := by
  unfold llcCtrlLen spec_ctrlLen
  rcases Nat.and_one_is_mod (getB pkt 16) ▸ Nat.mod_two_eq_zero_or_one (getB pkt 16) with h | h <;>
    simp [h]

/-- Claim C2: for every byte sequence, `is_appletalk` returns true iff the sequence is at
least 14 bytes long and either (a) bytes 12-13 read big-endian are ≥ 0x0600 and equal
0x809B or 0x80F3, or (b) that value is < 0x0600, the sequence is at least 22 bytes, bytes
14-16 are AA:AA:03, bytes 17-19 are all zero and bytes 20-21 equal one of the same two
values; every sequence shorter than 14 bytes yields false. -/
theorem c2_isProtocolFrame_spec :
    ∀ pkt : List Nat, is_appletalk pkt = spec_isProtocolFrame pkt := by
  intro pkt
  unfold is_appletalk spec_isProtocolFrame
  split_ifs with h14 h6 h22 <;> simp_all

/-- Claim C3: for every byte sequence, `is_do_ping` returns true iff the sequence is at
least 20 bytes, the 802.3 length field (bytes 12-13, big-endian) is < 1500, the
DSAP/SSAP unordered pair is (0x70, 0x69), and the 4 bytes after the LLC control field
(1 byte when the low bit of byte 16 is set, else 2), case-folded, contain `"ping"`; in
particular the crafted frame with payload `"PING"` is flagged and the same frame with
payload `"data"` is not. -/
theorem c3_isDiagnosticPing_spec :
    (∀ pkt : List Nat, is_do_ping pkt = spec_isDiagnosticPing pkt) ∧
    is_do_ping pingExampleFrame = true ∧ is_do_ping dataExampleFrame = false := by
  refine ⟨fun pkt => ?_, by decide, by decide⟩
  unfold is_do_ping spec_isDiagnosticPing
  rw [llcCtrlLen_eq_spec]
  split_ifs with h20 h1500 hsap <;> simp_all <;> omega

/-- If the first three bytes at an offset are fixed, the byte at that offset is fixed. -/
theorem take_three_eq_head (l : List Nat) (a b c : Nat)
    (h : l.take 3 = [a, b, c]) : l.getD 0 0 = a := by
  cases l with
  | nil => simp at h
  | cons x t => simp [List.take] at h ⊢; exact h.1

/-- Claim C10: for every byte sequence, `is_appletalk` and `is_do_ping` are never both
true: an Ethernet II protocol frame has bytes 12-13 ≥ 0x0600 (hence ≥ 1500, failing the
ping filter's length check), and a SNAP-encapsulated one has DSAP/SSAP = 0xAA/0xAA
(failing the SAP-pair check). -/
theorem c10_filters_disjoint :
    ∀ pkt : List Nat, (is_appletalk pkt && is_do_ping pkt) = false := by
  intro pkt
  cases hA : is_appletalk pkt
  · simp
  · simp only [Bool.true_and]
    unfold is_appletalk at hA
    split_ifs at hA with h14 h6 h22
    · -- Ethernet II: the length field is 0x809B or 0x80F3, both ≥ 1500
      simp only [Bool.or_eq_true, beq_iff_eq] at hA
      unfold is_do_ping
      have hge : 1500 ≤ ethertypeField pkt := by rcases hA with h | h <;> omega
      split_ifs with g20 g1500 <;> simp_all
    · -- SNAP: pkt[14] = 0xAA, so the DSAP/SSAP pair check fails
      simp only [Bool.and_eq_true, Bool.or_eq_true, beq_iff_eq] at hA
      obtain ⟨⟨hmagic, _⟩, _⟩ := hA
      have h14aa : getB pkt 14 = 0xAA := by
        have := take_three_eq_head (pkt.drop 14) 0xAA 0xAA 0x03 hmagic
        simpa [getB, List.getD_eq_getElem?_getD, List.getElem?_drop] using this
      unfold is_do_ping
      split_ifs with g20 g1500 gsap
      · rfl
      · rfl
      · rfl
      · exfalso
        simp only [Bool.not_eq_true', Bool.not_eq_false] at gsap
        simp only [Bool.or_eq_true, Bool.and_eq_true, beq_iff_eq] at gsap
        omega

/-! ## AddressCodec: `mac_bytes_to_str` / `mac_str_to_bytes` (lines 15-22) -/

/-- Python `f"{x:02x}"`: lowercase hex digits of `x`, left-padded with `'0'` to width 2. -/
def pyHex02 (x : Nat) : List Char :=
  let ds := Nat.toDigits 16 x
  if ds.length < 2 then '0' :: ds else ds

/-- Python `":".join(parts)`. -/
def joinColon : List (List Char) → List Char
  | [] => []
  | [p] => p
  | p :: ps => p ++ ':' :: joinColon ps

/-- Source `mac_bytes_to_str` (lines 15-16): `":".join(f"{x:02x}" for x in b)`. -/
def mac_bytes_to_str (b : List Nat) : List Char :=
  joinColon (b.map pyHex02)

/-- One character of `s.replace("-", ":")` (line 19). -/
def dashToColon (c : Char) : Char :=
  if c = '-' then ':' else c

/-- Python `s.split(":")`: every `':'` starts a new part; the empty string yields one
empty part. -/
def splitColon : List Char → List (List Char)
  | [] => [[]]
  | c :: rest =>
    if c = ':' then [] :: splitColon rest
    else
      match splitColon rest with
      | [] => [[c]]
      | p :: ps => (c :: p) :: ps

/-- ASCII hexadecimal digit. -/
def isHexDig (c : Char) : Bool :=
  (48 ≤ c.toNat && c.toNat ≤ 57) || (97 ≤ c.toNat && c.toNat ≤ 102) ||
  (65 ≤ c.toNat && c.toNat ≤ 70)

/-- Value of an ASCII hexadecimal digit. -/
def hexVal (c : Char) : Nat :=
  if c.toNat ≤ 57 then c.toNat - 48
  else if c.toNat ≤ 70 then c.toNat - 55
  else c.toNat - 87

/-- ASCII whitespace stripped by Python's `int`. -/
def isPySpace (c : Char) : Bool :=
  c == ' ' || c == '\t' || c == '\n' || c == '\r' || c == '\x0b' || c == '\x0c'

/-- Non-ASCII code points CPython's `Py_UNICODE_ISSPACE` treats as whitespace
(Unicode 14.0.0, the table CPython 3.11 ships; generated from `str.isspace`). -/
def unicodeSpaceHigh : List Nat :=
  [0x85, 0xA0, 0x1680, 0x2000, 0x2001, 0x2002, 0x2003, 0x2004, 0x2005, 0x2006,
   0x2007, 0x2008, 0x2009, 0x200A, 0x2028, 0x2029, 0x202F, 0x205F, 0x3000]

/-- Starts of the runs of ten Unicode decimal digits (characters with a decimal digit
value; Unicode 14.0.0, the table CPython 3.11 ships, generated from
`unicodedata.decimal`); the k-th character of each run has value k. -/
def decimalDigitRunStarts : List Nat :=
  [0x0030, 0x0660, 0x06F0, 0x07C0, 0x0966, 0x09E6, 0x0A66, 0x0AE6, 0x0B66, 0x0BE6,
   0x0C66, 0x0CE6, 0x0D66, 0x0DE6, 0x0E50, 0x0ED0, 0x0F20, 0x1040, 0x1090, 0x17E0,
   0x1810, 0x1946, 0x19D0, 0x1A80, 0x1A90, 0x1B50, 0x1BB0, 0x1C40, 0x1C50, 0xA620,
   0xA8D0, 0xA900, 0xA9D0, 0xA9F0, 0xAA50, 0xABF0, 0xFF10, 0x104A0, 0x10D30, 0x11066,
   0x110F0, 0x11136, 0x111D0, 0x112F0, 0x11450, 0x114D0, 0x11650, 0x116C0, 0x11730,
   0x118E0, 0x11950, 0x11C50, 0x11D50, 0x11DA0, 0x16A60, 0x16AC0, 0x16B50, 0x1D7CE,
   0x1D7D8, 0x1D7E2, 0x1D7EC, 0x1D7F6, 0x1E140, 0x1E2F0, 0x1E950, 0x1FBF0]

/-- CPython `Py_UNICODE_TODECIMAL`: the decimal digit value of a Unicode character,
if it has one. -/
def unicodeDecimal (c : Char) : Option Nat :=
  (decimalDigitRunStarts.find? fun s =>
      decide (s ≤ c.toNat) && decide (c.toNat ≤ s + 9)).map
    fun s => c.toNat - s

/-- CPython `_PyUnicode_TransformDecimalAndSpaceToASCII` on one character (applied by
`int` to any string holding a non-ASCII character): code points below 127 pass
through, non-ASCII whitespace becomes a space, a Unicode decimal digit becomes its
ASCII digit, and any other non-ASCII character is replaced by `'?'`, which makes the
following parse fail — modelled as `none`. -/
def pyTransform (c : Char) : Option Char :=
  if c.toNat < 127 then some c
  else if unicodeSpaceHigh.contains c.toNat then some ' '
  else
    match unicodeDecimal c with
    | some d => some (Char.ofNat (48 + d))
    | none => none

/-- The ASCII core of Python `int(p, 16)` on a two-character string: two hex digits,
or a hex digit with leading/trailing whitespace stripped, or a sign followed by a hex
digit; anything else raises. -/
def asciiInt16Pair (c1 c2 : Char) : Option Int :=
  if isHexDig c1 && isHexDig c2 then some (16 * (hexVal c1 : Int) + hexVal c2)
  else if isPySpace c1 && isHexDig c2 then some (hexVal c2)
  else if isHexDig c1 && isPySpace c2 then some (hexVal c1)
  else if c1 == '+' && isHexDig c2 then some (hexVal c2)
  else if c1 == '-' && isHexDig c2 then some (-(hexVal c2 : Int))
  else none

/-- Python `int(p, 16)` on a two-character string (the only shape that survives the
length filter on line 20): every character is first mapped through the
decimal-and-space transform (the identity on ASCII), then the ASCII pair is parsed. -/
def pyInt16Pair : List Char → Option Int
  | [c1, c2] =>
    match pyTransform c1, pyTransform c2 with
    | some t1, some t2 => asciiInt16Pair t1 t2
    | _, _ => none
  | _ => none

/-- Python `int(p, 16)` mapped over the parts; `none` as soon as one part fails. -/
def parseParts : List (List Char) → Option (List Int)
  | [] => some []
  | p :: ps =>
    match pyInt16Pair p, parseParts ps with
    | some v, some vs => some (v :: vs)
    | _, _ => none

/-- Source `mac_str_to_bytes` (lines 18-22): replace `'-'` by `':'`, split on `':'`, require 6
parts of length 2, parse each with `int(p, 16)` and build a `bytes` value (which
requires every element to lie in 0..255). -/
def mac_str_to_bytes (s : List Char) : Except Unit (List Nat) :=
  let parts := splitColon (s.map dashToColon)
  if parts.length != 6 || parts.any (fun p => p.length != 2) then .error ()
  else
    match parseParts parts with
    | none => .error ()
    | some vs =>
      if vs.all (fun v => 0 ≤ v && v < 256) then .ok (vs.map Int.toNat) else .error ()

/-- Lowercase ASCII hex digit. -/
def isLowerHex (c : Char) : Bool :=
  (48 ≤ c.toNat && c.toNat ≤ 57) || (97 ≤ c.toNat && c.toNat ≤ 102)

/-- The string is 6 lowercase hex pairs joined by colons (spec, section 3). -/
def sixLowerHexPairs (s : List Char) : Bool :=
  (splitColon s).length == 6 &&
  (splitColon s).all (fun p => p.length == 2 && p.all isLowerHex)

/-- The string is exactly 6 two-hex-digit groups separated by colons or dashes
(spec-side predicate for claim C6, following the spec's words). -/
def specSixHexGroups (s : List Char) : Bool :=
  (splitColon (s.map dashToColon)).length == 6 &&
  (splitColon (s.map dashToColon)).all (fun p => p.length == 2 && p.all isHexDig)

/-- A two-character group Python's `int(·, 16)` accepts with a value in 0..255 (given
that `'-'` can no longer occur after the replace on line 19): after CPython's
decimal-and-space transform of each character, two hex digits, or a hex digit
preceded by `'+'` or ASCII whitespace, or followed by ASCII whitespace. -/
def goodGroup : List Char → Bool
  | [c1, c2] =>
    match pyTransform c1, pyTransform c2 with
    | some t1, some t2 =>
      (isHexDig t1 && isHexDig t2) ||
      ((t1 == '+' || isPySpace t1) && isHexDig t2) ||
      (isHexDig t1 && isPySpace t2)
    | _, _ => false
  | _ => false

example : mac_str_to_bytes "02:00:00:aa:bb:cc".toList = .ok [2, 0, 0, 170, 187, 204] := by decide
example : mac_str_to_bytes "aa-bb-cc-dd-ee-ff".toList = .ok [170, 187, 204, 221, 238, 255] := by decide
example : mac_str_to_bytes "AA:BB:0C:dd:ee:f0".toList = .ok [170, 187, 12, 221, 238, 240] := by decide
example : mac_str_to_bytes "aa:aa:aa:aa:aa:+a".toList = .ok [170, 170, 170, 170, 170, 10] := by decide
example : mac_str_to_bytes "aa:bb:cc:dd:ee".toList = .error () := by decide
example : mac_str_to_bytes "aa:bb:cc:dd:ee:fff".toList = .error () := by decide
example : mac_str_to_bytes "aa:bb:cc:dd:ee:\u00A0f".toList =
    .ok [170, 187, 204, 221, 238, 15] := by decide
example : mac_str_to_bytes "aa:bb:cc:dd:ee:\u0085f".toList =
    .ok [170, 187, 204, 221, 238, 15] := by decide
example : mac_str_to_bytes "aa:bb:cc:dd:ee:５a".toList =
    .ok [170, 187, 204, 221, 238, 90] := by decide
example : mac_str_to_bytes "aa:bb:cc:dd:ee:４２".toList =
    .ok [170, 187, 204, 221, 238, 66] := by decide
example : mac_str_to_bytes "aa:bb:cc:dd:ee:\u001cf".toList = .error () := by decide
example : mac_str_to_bytes "aa:bb:cc:dd:ee:\u200Bf".toList = .error () := by decide
example : mac_str_to_bytes "aa:bb:cc:dd:ee:＋a".toList = .error () := by decide
example : mac_bytes_to_str [2, 0, 0, 170, 187, 204] = "02:00:00:aa:bb:cc".toList := by decide
example : mac_bytes_to_str [255, 255, 255, 255, 255, 255] = "ff:ff:ff:ff:ff:ff".toList := by decide

theorem pyHex02_facts : ∀ x, x < 256 →
    (pyHex02 x).length = 2 ∧ pyInt16Pair (pyHex02 x) = some (x : Int) ∧
    (∀ c ∈ pyHex02 x, c ≠ ':' ∧ c ≠ '-' ∧ isLowerHex c = true) := by decide

theorem splitColon_no_colon (p : List Char) (h : ∀ c ∈ p, c ≠ ':') :
    splitColon p = [p] := by
  induction p with
  | nil => rfl
  | cons c t ih =>
    have hc : c ≠ ':' := h c (List.mem_cons_self c t)
    have ht : splitColon t = [t] := ih fun d hd => h d (List.mem_cons_of_mem c hd)
    simp [splitColon, hc, ht]

theorem splitColon_append (p rest : List Char) (h : ∀ c ∈ p, c ≠ ':') :
    splitColon (p ++ ':' :: rest) = p :: splitColon rest := by
  induction p with
  | nil => simp [splitColon]
  | cons c t ih =>
    have hc : c ≠ ':' := h c (List.mem_cons_self c t)
    have ht := ih fun d hd => h d (List.mem_cons_of_mem c hd)
    simp [splitColon, hc, ht]

theorem map_dashToColon_id (s : List Char) (h : ∀ c ∈ s, c ≠ '-') :
    s.map dashToColon = s := by
  induction s with
  | nil => rfl
  | cons c t ih =>
    have hc : c ≠ '-' := h c (List.mem_cons_self c t)
    have ht := ih fun d hd => h d (List.mem_cons_of_mem c hd)
    simp [dashToColon, hc, ht]

theorem parseParts_length (ps : List (List Char)) (vs : List Int)
    (h : parseParts ps = some vs) : vs.length = ps.length := by
  induction ps generalizing vs with
  | nil => simp [parseParts] at h; simp [← h]
  | cons p pt ih =>
    simp only [parseParts] at h
    cases h1 : pyInt16Pair p with
    | none => simp [h1] at h
    | some v =>
      cases h2 : parseParts pt with
      | none => simp [h1, h2] at h
      | some vt =>
        simp [h1, h2] at h
        simp [← h, ih vt h2]

/-- Round-trip core: printing six bytes and reparsing recovers them, and the printed
form is six lowercase hex pairs joined by colons. -/
theorem mac_roundtrip (b : List Nat) (hlen : b.length = 6) (hb : ∀ x ∈ b, x < 256) :
    mac_str_to_bytes (mac_bytes_to_str b) = .ok b ∧
    sixLowerHexPairs (mac_bytes_to_str b) = true := by
  rcases b with _ | ⟨x0, _ | ⟨x1, _ | ⟨x2, _ | ⟨x3, _ | ⟨x4, _ | ⟨x5, _ | ⟨x6, t⟩⟩⟩⟩⟩⟩⟩ <;>
    simp only [List.length] at hlen <;> try omega
  have h0 := pyHex02_facts x0 (hb x0 (by simp))
  have h1 := pyHex02_facts x1 (hb x1 (by simp))
  have h2 := pyHex02_facts x2 (hb x2 (by simp))
  have h3 := pyHex02_facts x3 (hb x3 (by simp))
  have h4 := pyHex02_facts x4 (hb x4 (by simp))
  have h5 := pyHex02_facts x5 (hb x5 (by simp))
  have hs : mac_bytes_to_str [x0, x1, x2, x3, x4, x5] =
      pyHex02 x0 ++ ':' :: (pyHex02 x1 ++ ':' :: (pyHex02 x2 ++ ':' ::
        (pyHex02 x3 ++ ':' :: (pyHex02 x4 ++ ':' :: pyHex02 x5)))) := by
    simp [mac_bytes_to_str, joinColon]
  have hnodash : ∀ c ∈ mac_bytes_to_str [x0, x1, x2, x3, x4, x5], c ≠ '-' := by
    rw [hs]
    intro c hc
    simp only [List.mem_append, List.mem_cons] at hc
    rcases hc with h | h | h | h | h | h | h | h | h | h | h
    · exact (h0.2.2 c h).2.1
    · subst h; decide
    · exact (h1.2.2 c h).2.1
    · subst h; decide
    · exact (h2.2.2 c h).2.1
    · subst h; decide
    · exact (h3.2.2 c h).2.1
    · subst h; decide
    · exact (h4.2.2 c h).2.1
    · subst h; decide
    · exact (h5.2.2 c h).2.1
  have hsplit : splitColon (mac_bytes_to_str [x0, x1, x2, x3, x4, x5]) =
      [pyHex02 x0, pyHex02 x1, pyHex02 x2, pyHex02 x3, pyHex02 x4, pyHex02 x5] := by
    rw [hs]
    rw [splitColon_append _ _ fun c hc => (h0.2.2 c hc).1]
    rw [splitColon_append _ _ fun c hc => (h1.2.2 c hc).1]
    rw [splitColon_append _ _ fun c hc => (h2.2.2 c hc).1]
    rw [splitColon_append _ _ fun c hc => (h3.2.2 c hc).1]
    rw [splitColon_append _ _ fun c hc => (h4.2.2 c hc).1]
    rw [splitColon_no_colon _ fun c hc => (h5.2.2 c hc).1]
  constructor
  · unfold mac_str_to_bytes
    rw [map_dashToColon_id _ hnodash, hsplit]
    have hx0 : (x0 : Int) < 256 := by exact_mod_cast hb x0 (by simp)
    have hx1 : (x1 : Int) < 256 := by exact_mod_cast hb x1 (by simp)
    have hx2 : (x2 : Int) < 256 := by exact_mod_cast hb x2 (by simp)
    have hx3 : (x3 : Int) < 256 := by exact_mod_cast hb x3 (by simp)
    have hx4 : (x4 : Int) < 256 := by exact_mod_cast hb x4 (by simp)
    have hx5 : (x5 : Int) < 256 := by exact_mod_cast hb x5 (by simp)
    simp [parseParts, h0.1, h1.1, h2.1, h3.1, h4.1, h5.1,
      h0.2.1, h1.2.1, h2.2.1, h3.2.1, h4.2.1, h5.2.1,
      hx0, hx1, hx2, hx3, hx4, hx5]
  · unfold sixLowerHexPairs
    rw [hsplit]
    simp only [List.all_cons, List.all_nil, List.length_cons, List.length_nil]
    simp [h0.1, h1.1, h2.1, h3.1, h4.1, h5.1, List.all_eq_true]
    exact ⟨fun c hc => (h0.2.2 c hc).2.2, fun c hc => (h1.2.2 c hc).2.2,
      fun c hc => (h2.2.2 c hc).2.2, fun c hc => (h3.2.2 c hc).2.2,
      fun c hc => (h4.2.2 c hc).2.2, fun c hc => (h5.2.2 c hc).2.2⟩

/-- A successful parse always yields exactly 6 bytes, each below 256. -/
theorem mac_parse_shape (s : List Char) (b : List Nat)
    (h : mac_str_to_bytes s = .ok b) : b.length = 6 ∧ ∀ x ∈ b, x < 256 := by
  simp only [mac_str_to_bytes] at h
  split_ifs at h with hcond
  simp only [Bool.or_eq_true, bne_iff_ne, ne_eq, List.any_eq_true, not_or, not_exists,
    not_and, Decidable.not_not] at hcond
  cases hp : parseParts (splitColon (s.map dashToColon)) with
  | none =>
    rw [hp] at h
    simp at h
  | some vs =>
    rw [hp] at h
    dsimp only at h
    split_ifs at h with hall
    · simp only [Except.ok.injEq] at h
      subst h
      have hlen := parseParts_length _ _ hp
      simp only [List.all_eq_true, Bool.and_eq_true, decide_eq_true_eq] at hall
      constructor
      · simp [hlen, hcond.1]
      · intro x hx
        obtain ⟨v, hv, rfl⟩ := List.mem_map.mp hx
        have := hall v hv
        omega

/-- Claim C5: for every 6-byte sequence, printing with `mac_bytes_to_str` and reparsing
with `mac_str_to_bytes` returns exactly the original bytes, and the printed string is 6
lowercase hex pairs joined by colons; moreover every string the parser accepts
round-trips byte-for-byte through the codec. -/
theorem c5_address_roundtrip :
    (∀ b : List Nat, b.length = 6 → (∀ x ∈ b, x < 256) →
        mac_str_to_bytes (mac_bytes_to_str b) = .ok b ∧
        sixLowerHexPairs (mac_bytes_to_str b) = true) ∧
    (∀ s b, mac_str_to_bytes s = .ok b → mac_str_to_bytes (mac_bytes_to_str b) = .ok b) := by
  refine ⟨fun b hl hb => mac_roundtrip b hl hb, fun s b h => ?_⟩
  obtain ⟨hl, hb⟩ := mac_parse_shape s b h
  exact (mac_roundtrip b hl hb).1

theorem c5_address_roundtrip_witness :
    mac_str_to_bytes (mac_bytes_to_str [2, 0, 0, 170, 187, 204]) =
      .ok [2, 0, 0, 170, 187, 204] :=
  (c5_address_roundtrip.1 [2, 0, 0, 170, 187, 204] (by decide) (by decide)).1

/-- The value of an ASCII hex digit is at most 15. -/
theorem hexVal_le (c : Char) (h : isHexDig c = true) : hexVal c ≤ 15 := by
  simp only [isHexDig, Bool.or_eq_true, Bool.and_eq_true, decide_eq_true_eq] at h
  unfold hexVal
  split_ifs <;> omega

/-- Replacing dashes leaves no dash in the string. -/
theorem dashToColon_ne_dash (c : Char) : dashToColon c ≠ '-' := by
  unfold dashToColon
  split_ifs with h
  · decide
  · exact h

/-- Characters of a split part are characters of the split string. -/
theorem splitColon_mem (s : List Char) :
    ∀ p ∈ splitColon s, ∀ c ∈ p, c ∈ s := by
  induction s with
  | nil =>
    intro p hp c hc
    simp only [splitColon, List.mem_singleton] at hp
    subst hp
    simp at hc
  | cons d t ih =>
    intro p hp c hc
    simp only [splitColon] at hp
    split_ifs at hp with hd
    · rcases List.mem_cons.mp hp with rfl | h
      · simp at hc
      · exact List.mem_cons_of_mem _ (ih p h c hc)
    · cases hsp : splitColon t with
      | nil =>
        rw [hsp] at hp
        simp only [List.mem_singleton] at hp
        subst hp
        rcases List.mem_cons.mp hc with rfl | h
        · exact List.mem_cons_self _ _
        · simp at h
      | cons q qs =>
        rw [hsp] at hp
        rcases List.mem_cons.mp hp with rfl | h
        · rcases List.mem_cons.mp hc with rfl | h
          · exact List.mem_cons_self _ _
          · exact List.mem_cons_of_mem _ (ih q (by rw [hsp]; exact List.mem_cons_self _ _) c h)
        · exact List.mem_cons_of_mem _ (ih p (by rw [hsp]; exact List.mem_cons_of_mem _ h) c hc)

/-- A Unicode decimal digit value is at most 9. -/
theorem unicodeDecimal_le (c : Char) (d : Nat) (h : unicodeDecimal c = some d) :
    d ≤ 9 := by
  unfold unicodeDecimal at h
  cases hf : decimalDigitRunStarts.find? (fun s =>
      decide (s ≤ c.toNat) && decide (c.toNat ≤ s + 9)) with
  | none =>
    rw [hf] at h
    simp at h
  | some s =>
    rw [hf] at h
    have hs := List.find?_some hf
    simp only [Bool.and_eq_true, decide_eq_true_eq] at hs
    simp only [Option.map_some', Option.some.injEq] at h
    omega

/-- Every output of the transform is the input itself, a space, or an ASCII digit. -/
theorem pyTransform_shape (c t : Char) (h : pyTransform c = some t) :
    t = c ∨ t = ' ' ∨ ∃ d, d ≤ 9 ∧ t = Char.ofNat (48 + d) := by
  unfold pyTransform at h
  split_ifs at h with h1 h2
  · simp only [Option.some.injEq] at h
    exact Or.inl h.symm
  · simp only [Option.some.injEq] at h
    exact Or.inr (Or.inl h.symm)
  · cases hd : unicodeDecimal c with
    | none =>
      rw [hd] at h
      simp at h
    | some d =>
      rw [hd] at h
      simp only [Option.some.injEq] at h
      exact Or.inr (Or.inr ⟨d, unicodeDecimal_le c d hd, h.symm⟩)

/-- The transform never produces `'-'` from a character other than `'-'`. -/
theorem pyTransform_ne_dash (c t : Char) (hc : c ≠ '-') (h : pyTransform c = some t) :
    t ≠ '-' := by
  rcases pyTransform_shape c t h with rfl | rfl | ⟨d, hd, rfl⟩
  · exact hc
  · decide
  · clear h
    revert hd
    revert d
    decide

/-- Characterization of the transformed ASCII pairs `int(·, 16)` accepts with a value
in 0..255, given that the first character is not `'-'`. -/
theorem asciiGroup_iff (c1 c2 : Char) (h1 : c1 ≠ '-') :
    (∃ v, asciiInt16Pair c1 c2 = some v ∧ 0 ≤ v ∧ v < 256) ↔
    ((isHexDig c1 && isHexDig c2) ||
     ((c1 == '+' || isPySpace c1) && isHexDig c2) ||
     (isHexDig c1 && isPySpace c2)) = true := by
  unfold asciiInt16Pair
  split_ifs with b1 b2 b3 b4 b5
  · simp only [Bool.and_eq_true] at b1
    have e1 := hexVal_le c1 b1.1
    have e2 := hexVal_le c2 b1.2
    constructor
    · intro _
      simp [b1.1, b1.2]
    · intro _
      exact ⟨16 * (hexVal c1 : Int) + hexVal c2, rfl, by omega, by omega⟩
  · simp only [Bool.and_eq_true] at b2
    have e2 := hexVal_le c2 b2.2
    constructor
    · intro _
      simp [b2.1, b2.2]
    · intro _
      exact ⟨(hexVal c2 : Int), rfl, by omega, by omega⟩
  · simp only [Bool.and_eq_true] at b3
    have e1 := hexVal_le c1 b3.1
    constructor
    · intro _
      simp [b3.1, b3.2]
    · intro _
      exact ⟨(hexVal c1 : Int), rfl, by omega, by omega⟩
  · simp only [Bool.and_eq_true] at b4
    have e2 := hexVal_le c2 b4.2
    constructor
    · intro _
      simp [b4.1, b4.2]
    · intro _
      exact ⟨(hexVal c2 : Int), rfl, by omega, by omega⟩
  · simp only [Bool.and_eq_true, beq_iff_eq] at b5
    exact absurd b5.1 h1
  · constructor
    · rintro ⟨v, hv, -⟩
      simp at hv
    · intro h
      exfalso
      simp only [Bool.or_eq_true, Bool.and_eq_true] at h b1 b2 b3 b4
      tauto

/-- Characterization of the groups `int(·, 16)` accepts with a value in 0..255, given
that the group contains no `'-'` (impossible after the replace on line 19). -/
theorem goodGroup_iff (p : List Char) (hnd : ∀ c ∈ p, c ≠ '-') :
    (p.length = 2 ∧ ∃ v, pyInt16Pair p = some v ∧ 0 ≤ v ∧ v < 256) ↔ goodGroup p = true := by
  match p with
  | [] => simp [pyInt16Pair, goodGroup]
  | [c] => simp [pyInt16Pair, goodGroup]
  | c1 :: c2 :: c3 :: t =>
    constructor
    · rintro ⟨hl, -⟩
      simp at hl
    · intro h
      simp [goodGroup] at h
  | [c1, c2] =>
    simp only [pyInt16Pair, goodGroup, List.length_cons, List.length_nil]
    cases ht1 : pyTransform c1 with
    | none => simp
    | some t1 =>
      cases ht2 : pyTransform c2 with
      | none => simp
      | some t2 =>
        have h1 : t1 ≠ '-' := pyTransform_ne_dash c1 t1 (hnd c1 (by simp)) ht1
        simpa using asciiGroup_iff t1 t2 h1

theorem parseParts_mem_of_ok (ps : List (List Char)) (vs : List Int)
    (h : parseParts ps = some vs) :
    ∀ p ∈ ps, ∃ v, pyInt16Pair p = some v ∧ v ∈ vs := by
  induction ps generalizing vs with
  | nil => simp
  | cons p pt ih =>
    simp only [parseParts] at h
    cases h1 : pyInt16Pair p <;> rw [h1] at h
    · simp at h
    cases h2 : parseParts pt <;> rw [h2] at h
    · simp at h
    simp only [Option.some.injEq] at h
    intro q hq
    rcases List.mem_cons.mp hq with rfl | hq2
    · exact ⟨_, h1, by simp [← h]⟩
    · obtain ⟨v, hv, hmem⟩ := ih _ h2 q hq2
      exact ⟨v, hv, by simp [← h]; right; exact hmem⟩

theorem parseParts_ok_of (ps : List (List Char))
    (h : ∀ p ∈ ps, ∃ v, pyInt16Pair p = some v ∧ 0 ≤ v ∧ v < 256) :
    ∃ vs, parseParts ps = some vs ∧
      (vs.all fun v => decide (0 ≤ v) && decide (v < 256)) = true := by
  induction ps with
  | nil => exact ⟨[], rfl, rfl⟩
  | cons p pt ih =>
    obtain ⟨v, hv, hr⟩ := h p (by simp)
    obtain ⟨vt, hvt, hall⟩ := ih fun q hq => h q (List.mem_cons_of_mem _ hq)
    refine ⟨v :: vt, ?_, ?_⟩
    · simp [parseParts, hv, hvt]
    · simp only [List.all_cons, hall, Bool.and_true, Bool.and_eq_true, decide_eq_true_eq]
      exact hr

/-- Claim C6 counterexample: the parser accepts `"aa:aa:aa:aa:aa:+a"` (Python's
`int("+a", 16)` evaluates to 10), although that string does not consist of 6
two-hex-digit groups, so "succeeds iff exactly 6 two-hex-digit groups" is false. -/
theorem c6_counterexample :
    mac_str_to_bytes "aa:aa:aa:aa:aa:+a".toList = .ok [170, 170, 170, 170, 170, 10] ∧
    specSixHexGroups "aa:aa:aa:aa:aa:+a".toList = false := by
  decide

/-- Claim C6 (amended): the parser accepts `':'` or `'-'` as separators, and succeeds
iff the string is exactly 6 two-character groups each of which `int(·, 16)` accepts:
after CPython's transform that turns non-ASCII Unicode whitespace into a space and a
Unicode decimal digit into its ASCII digit (any other non-ASCII character fails), the
group is two hex digits, or a hex digit preceded by `'+'` or ASCII whitespace, or a
hex digit followed by ASCII whitespace. -/
theorem c6_amended_parser_domain :
    ∀ s : List Char,
      (∃ b, mac_str_to_bytes s = .ok b) ↔
      ((splitColon (s.map dashToColon)).length = 6 ∧
       ∀ p ∈ splitColon (s.map dashToColon), goodGroup p = true) := by
  intro s
  have hnd : ∀ p ∈ splitColon (s.map dashToColon), ∀ c ∈ p, c ≠ '-' := by
    intro p hp c hc
    have hmem := splitColon_mem _ p hp c hc
    obtain ⟨d, -, rfl⟩ := List.mem_map.mp hmem
    exact dashToColon_ne_dash d
  constructor
  · rintro ⟨b, h⟩
    simp only [mac_str_to_bytes] at h
    split_ifs at h with hcond
    simp only [Bool.or_eq_true, bne_iff_ne, ne_eq, List.any_eq_true, not_or, not_exists,
      not_and, Decidable.not_not] at hcond
    cases hp : parseParts (splitColon (s.map dashToColon)) with
    | none =>
      rw [hp] at h
      simp at h
    | some vs =>
      rw [hp] at h
      dsimp only at h
      split_ifs at h with hall
      simp only [List.all_eq_true, Bool.and_eq_true, decide_eq_true_eq] at hall
      refine ⟨hcond.1, fun p hp2 => ?_⟩
      obtain ⟨v, hv, hmem⟩ := parseParts_mem_of_ok _ _ hp p hp2
      have hr := hall v hmem
      exact (goodGroup_iff p (hnd p hp2)).mp ⟨hcond.2 p hp2, v, hv, hr.1, hr.2⟩
  · rintro ⟨h6, hg⟩
    have hvals : ∀ p ∈ splitColon (s.map dashToColon),
        ∃ v, pyInt16Pair p = some v ∧ 0 ≤ v ∧ v < 256 := by
      intro p hp
      exact ((goodGroup_iff p (hnd p hp)).mpr (hg p hp)).2
    have hlen2 : ∀ p ∈ splitColon (s.map dashToColon), p.length = 2 := by
      intro p hp
      exact ((goodGroup_iff p (hnd p hp)).mpr (hg p hp)).1
    obtain ⟨vs, hvs, hall⟩ := parseParts_ok_of _ hvals
    refine ⟨vs.map Int.toNat, ?_⟩
    have hcond : ((splitColon (s.map dashToColon)).length != 6 ||
        (splitColon (s.map dashToColon)).any fun p => p.length != 2) = false := by
      simp only [Bool.or_eq_false_iff, bne_eq_false_iff_eq, List.any_eq_false, bne_iff_ne,
        ne_eq, Decidable.not_not]
      exact ⟨h6, hlen2⟩
    simp [mac_str_to_bytes, hcond, hvs, hall]

theorem c6_amended_parser_domain_witness :
    ∃ b, mac_str_to_bytes "aa:bb-cc:dd:ee:ff".toList = .ok b :=
  (c6_amended_parser_domain "aa:bb-cc:dd:ee:ff".toList).mpr (by decide)

/-! ## SessionIdentity, connection epochs and the reconnect loop (lines 67-159)

The bridge coroutine keeps, per epoch, two locals: `my_mac : Optional[bytes]` and
`init_sent : bool`, both (re)assigned at lines 90-91 inside the `while True` reconnect
loop, after the WebSocket connect.  Messages put on the socket are JSON objects; they
are embedded as the `Msg` inductive carrying the same fields. -/

/-- A transport message sent by the bridge: `{"type":"init","macAddress":...}` (line 97)
or `{"type":"send","destination":...,"packetArray":...}` (lines 119-123). -/
inductive Msg
  | init (macAddress : List Char)
  | send (destination : List Char) (packetArray : List Nat)
  deriving DecidableEq

/-- The per-epoch identity state: the locals `my_mac` and `init_sent` (lines 90-91). -/
structure EpochState where
  myMac : Option (List Nat)
  initSent : Bool
  deriving DecidableEq

/-- Source `send_init` (lines 93-100): a no-op unless an address is known and no init message
was sent yet in this epoch; otherwise it sends one init message and sets the flag. -/
def send_init (st : EpochState) : EpochState × List Msg :=
  match st.myMac with
  | none => (st, [])
  | some m =>
    if st.initSent then (st, [])
    else ({ st with initSent := true }, [Msg.init (mac_bytes_to_str m)])

/-- Source `is_unicast` (lines 24-25): the low bit of the first byte is 0.  Every call site
passes `pkt[6:12]` of a frame of at least 14 bytes, so the list is never empty. -/
def is_unicast (mac : List Nat) : Bool :=
  mac.headD 0 &&& 1 == 0

/-- One iteration of the `tap_to_ws` pump body (lines 108-124) on a dequeued frame:
drop non-AppleTalk frames; learn `my_mac` from the source field of the first valid
frame when unknown and unicast (sending init right away); call `send_init` again
(idempotent); then send the frame as a `"send"` message. -/
def tap_to_ws_step (st : EpochState) (pkt : List Nat) : EpochState × List Msg :=
  if !is_appletalk pkt then (st, [])
  else
    let learned :=
      if st.myMac.isNone && is_unicast ((pkt.drop 6).take 6) then
        send_init { st with myMac := some ((pkt.drop 6).take 6) }
      else (st, [])
    ((send_init learned.1).1,
     learned.2 ++ (send_init learned.1).2 ++ [Msg.send (mac_bytes_to_str (pkt.take 6)) pkt])

/-- The `tap_to_ws` pump run over a list of dequeued frames, accumulating the messages
sent on the socket. -/
def runTap (st : EpochState) : List (List Nat) → EpochState × List Msg
  | [] => (st, [])
  | p :: ps =>
    ((runTap (tap_to_ws_step st p).1 ps).1,
     (tap_to_ws_step st p).2 ++ (runTap (tap_to_ws_step st p).1 ps).2)

/-- Lines 90-91, executed afresh on every iteration of the reconnect loop:
`my_mac = mac_str_to_bytes(mac_opt) if mac_opt else None` (a malformed configured
address raises here) and `init_sent = False`. -/
def epochInit (macOpt : Option (List Char)) : Except Unit EpochState :=
  match macOpt with
  | none => .ok { myMac := none, initSent := false }
  | some s =>
    match mac_str_to_bytes s with
    | .error e => .error e
    | .ok m => .ok { myMac := some m, initSent := false }

/-- Lines 90-104: epoch-local initialization followed by the immediate registration
attempt `if my_mac is not None: await send_init("cli")`. -/
def epochStart (macOpt : Option (List Char)) : Except Unit (EpochState × List Msg) :=
  match epochInit macOpt with
  | .error e => .error e
  | .ok st =>
    match st.myMac with
    | some _ => .ok (send_init st)
    | none => .ok (st, [])

/-- What one iteration of the `while True` loop does next: sleep 1 s and reconnect, or
end the process.  The source's loop body never produces the second action: its
`except Exception` handler (lines 156-159) swallows every exception raised inside the
iteration, including the `ValueError` of a malformed `--mac`. -/
inductive LoopAction
  | retryAfterDelay
  | exitProcess
  deriving DecidableEq

/-- One iteration of the reconnect loop (lines 84-159): a failed connect raises and is
caught; otherwise the epoch runs lines 90-104 (whose `ValueError` on a bad configured
address is likewise caught) and then pumps frames until the epoch dies of a transport
exception, which is also caught.  `asyncio.gather` of the two infinite pumps never
returns normally, so every iteration ends in a caught exception followed by the 1 s
sleep and a retry. -/
def loopBody (connectOk : Bool) (macOpt : Option (List Char)) (pkts : List (List Nat)) :
    LoopAction × List Msg :=
  if !connectOk then (.retryAfterDelay, [])
  else
    match epochStart macOpt with
    | .error _ => (.retryAfterDelay, [])
    | .ok (st0, ms0) => (.retryAfterDelay, ms0 ++ (runTap st0 pkts).2)

/-- The identity state a new epoch starts from after a reconnect, as a function of the
previous epoch's history: the previous epoch (lines 90-124) runs, the iteration's
locals are discarded when the `async with` block exits, and the next iteration
re-executes lines 90-91 from `mac_opt` alone. -/
def reconnectEpochInit (macOpt : Option (List Char)) (firstEpochPkts : List (List Nat)) :
    Except Unit EpochState :=
  match epochStart macOpt with
  | .error _ => epochInit macOpt
  | .ok (st0, _) =>
    let _epoch1 := runTap st0 firstEpochPkts
    epochInit macOpt

/-- Number of registration messages in a trace. -/
def countInit (ms : List Msg) : Nat :=
  ms.countP fun m =>
    match m with
    | .init _ => true
    | _ => false

/-! ## The bounded tap-read queue (lines 71-82) -/

/-- The `asyncio.Queue` holding frames read from the tap device: a maximum size and the
queued items. -/
structure PQueue where
  maxsize : Nat
  items : List (List Nat)
  deriving DecidableEq

/-- Python `asyncio.Queue.full()`: with a positive `maxsize`, the queue is full when it holds
at least `maxsize` items (a non-positive `maxsize` means unbounded). -/
def queueFull (q : PQueue) : Bool :=
  decide (0 < q.maxsize) && decide (q.maxsize ≤ q.items.length)

/-- Python `Queue.put_nowait` as used on line 78: on a full queue it raises `QueueFull`, which
`_read_ready` catches and logs (line 80) — the Boolean records that a drop was logged;
otherwise the frame is appended. -/
def put_nowait (q : PQueue) (pkt : List Nat) : PQueue × Bool :=
  if queueFull q then (q, true)
  else ({ q with items := q.items ++ [pkt] }, false)

/-- Source `_read_ready` (lines 74-80): a nonempty read is enqueued; the `QueueFull` raised on
a full queue is caught by the blanket handler and logged to stderr. -/
def read_ready (q : PQueue) (pkt : List Nat) : PQueue × Bool :=
  if pkt.isEmpty then (q, false)
  else put_nowait q pkt

/-- The configuration surface of `bridge` (lines 67, 161-168): URL, tap name, optional
MAC string and verbosity.  (The keep-alive interval, a float, plays no role in queue
construction.) -/
structure BridgeArgs where
  url : List Char
  tap : List Char
  mac : Option (List Char)
  verbose : Bool
  deriving DecidableEq

/-- Line 72: the queue every run of `bridge` creates —
`asyncio.Queue(maxsize=2048)`, with the size a literal independent of the arguments. -/
def mkBridgeQueue (_args : BridgeArgs) : PQueue :=
  { maxsize := 2048, items := [] }

/-! ## Registration invariants (claims C1, C4, C7) -/

/-- Function `send_init` sends an init message exactly when the `init_sent` flag flips. -/
theorem send_init_count (st : EpochState) :
    countInit (send_init st).2 + (if st.initSent then 1 else 0) =
      if (send_init st).1.initSent then 1 else 0 := by
  obtain ⟨mm, fl⟩ := st
  cases mm <;> cases fl <;> simp [send_init, countInit]

/-- One pump iteration sends an init message exactly when the flag flips. -/
theorem tap_to_ws_step_count (st : EpochState) (p : List Nat) :
    countInit (tap_to_ws_step st p).2 + (if st.initSent then 1 else 0) =
      if (tap_to_ws_step st p).1.initSent then 1 else 0 := by
  obtain ⟨mm, fl⟩ := st
  unfold tap_to_ws_step
  cases hA : is_appletalk p <;>
    cases hu : is_unicast ((p.drop 6).take 6) <;>
      cases mm <;> cases fl <;>
        simp [send_init, countInit, List.countP_cons, List.countP_nil]

/-- The whole pump run sends init messages exactly as often as the flag flips. -/
theorem runTap_count (pkts : List (List Nat)) : ∀ st : EpochState,
    countInit (runTap st pkts).2 + (if st.initSent then 1 else 0) =
      if (runTap st pkts).1.initSent then 1 else 0 := by
  induction pkts with
  | nil =>
    intro st
    simp [runTap, countInit]
  | cons p ps ih =>
    intro st
    have h1 := tap_to_ws_step_count st p
    have h2 := ih (tap_to_ws_step st p).1
    simp only [runTap, countInit, List.countP_append] at h1 h2 ⊢
    split_ifs at h1 h2 ⊢ <;> omega

/-- The epoch-local initialization always starts with the flag cleared. -/
theorem epochInit_flag (macOpt : Option (List Char)) (st : EpochState)
    (h : epochInit macOpt = .ok st) : st.initSent = false := by
  unfold epochInit at h
  cases macOpt with
  | none =>
    simp only [Except.ok.injEq] at h
    rw [← h]
  | some s =>
    cases hm : mac_str_to_bytes s <;> simp only [hm] at h
    · simp at h
    · simp only [Except.ok.injEq] at h
      rw [← h]

/-- The epoch prologue (lines 90-104) sends init messages exactly as often as the flag
is set at its end (the flag starts out false). -/
theorem epochStart_count (macOpt : Option (List Char)) (st0 : EpochState) (ms0 : List Msg)
    (h : epochStart macOpt = .ok (st0, ms0)) :
    countInit ms0 = if st0.initSent then 1 else 0 := by
  unfold epochStart at h
  cases hE : epochInit macOpt <;> simp only [hE] at h
  case error e =>
    simp at h
  case ok st =>
    have hflag := epochInit_flag macOpt st hE
    obtain ⟨mm, fl⟩ := st
    simp only at hflag
    subst hflag
    cases mm with
    | none =>
      simp only [Except.ok.injEq, Prod.mk.injEq] at h
      rw [← h.1, ← h.2]
      simp [countInit]
    | some m =>
      simp only [send_init] at h
      simp only [Bool.false_eq_true, if_false, Except.ok.injEq, Prod.mk.injEq] at h
      rw [← h.1, ← h.2]
      simp [countInit, List.countP_cons, List.countP_nil]

/-- Claim C7: within one connection epoch the registration message is sent at most once
and never before an address is known: the full epoch trace (prologue plus any pump run)
contains at most one init message; `send_init` is a no-op once the flag is set or while
no address is known; and whenever `send_init` does send, the state held an address and
the message carries it. -/
theorem c7_registration_once :
    (∀ (macOpt : Option (List Char)) (st0 : EpochState) (ms0 : List Msg)
        (pkts : List (List Nat)),
        epochStart macOpt = .ok (st0, ms0) →
        countInit (ms0 ++ (runTap st0 pkts).2) ≤ 1) ∧
    (∀ st : EpochState, st.initSent = true → send_init st = (st, [])) ∧
    (∀ st : EpochState, st.myMac = none → send_init st = (st, [])) ∧
    (∀ (st st2 : EpochState) (ms : List Msg), send_init st = (st2, ms) → ms ≠ [] →
        ∃ m, st.myMac = some m ∧ ms = [Msg.init (mac_bytes_to_str m)]) := by
  refine ⟨?_, ?_, ?_, ?_⟩
  · intro macOpt st0 ms0 pkts h
    have h0 := epochStart_count macOpt st0 ms0 h
    have h1 := runTap_count pkts st0
    simp only [countInit, List.countP_append] at h0 h1 ⊢
    split_ifs at h0 h1 <;> omega
  · intro st hf
    obtain ⟨mm, fl⟩ := st
    cases mm <;> simp_all [send_init]
  · intro st hm
    obtain ⟨mm, fl⟩ := st
    simp_all [send_init]
  · intro st st2 ms h hne
    obtain ⟨mm, fl⟩ := st
    cases mm with
    | none => simp [send_init] at h; simp [← h.2] at hne
    | some m =>
      cases fl with
      | true => simp [send_init] at h; simp [← h.2] at hne
      | false =>
        simp [send_init] at h
        exact ⟨m, rfl, by simp [← h.2]⟩

theorem c7_registration_once_witness :
    countInit ([Msg.init "02:00:00:aa:bb:cc".toList] ++
      (runTap { myMac := some [2, 0, 0, 170, 187, 204], initSent := true }
        [pingExampleFrame, dataExampleFrame]).2) ≤ 1 :=
  c7_registration_once.1 (some "02:00:00:aa:bb:cc".toList)
    { myMac := some [2, 0, 0, 170, 187, 204], initSent := true }
    [Msg.init "02:00:00:aa:bb:cc".toList] [pingExampleFrame, dataExampleFrame] (by decide)

/-- A broadcast-destination AppleTalk frame (EtherType 0x809B) whose source field
(bytes 6..12) is the unicast address 02:00:00:aa:bb:cc. -/
def learnExampleFrame : List Nat :=
  [255, 255, 255, 255, 255, 255, 2, 0, 0, 170, 187, 204, 0x80, 0x9B]

/-- Claim C1 counterexample: run with no configured address; during the first epoch the
pump learns the address 02:00:00:aa:bb:cc from `learnExampleFrame`; after the reconnect
the new epoch starts with `myMac = none` (lines 90-91 re-run inside the loop), not with
the learned address, so the claim that the address is retained across the reconnect is
false on this run. -/
theorem c1_counterexample :
    (runTap { myMac := none, initSent := false } [learnExampleFrame]).1.myMac =
      some [2, 0, 0, 170, 187, 204] ∧
    reconnectEpochInit none [learnExampleFrame] =
      .ok { myMac := none, initSent := false } ∧
    (none : Option (List Nat)) ≠ some [2, 0, 0, 170, 187, 204] := by
  decide

/-- Claim C1 (amended): a hardware address learned during an epoch is NOT retained
across a reconnect.  Every iteration of the reconnect loop re-executes lines 90-91, so
the identity state a new epoch starts from depends on the static configuration alone
(whatever the previous epoch learned), and with no configured address every epoch
starts with no address known and the registration flag clear.  Only the registration
flag reset of the original claim survives. -/
theorem c1_amended_no_retention :
    (∀ (macOpt : Option (List Char)) (pkts : List (List Nat)),
        reconnectEpochInit macOpt pkts = epochInit macOpt) ∧
    (∀ pkts : List (List Nat),
        reconnectEpochInit none pkts = .ok { myMac := none, initSent := false }) := by
  constructor
  · intro macOpt pkts
    unfold reconnectEpochInit
    cases h : epochStart macOpt <;> rfl
  · intro pkts
    rfl

/-- Claim C4 counterexample: with the malformed configured address `"zz"`, the parse at
line 90 raises inside the loop's `try`, the handler at line 156 catches it, and the
iteration ends in a retry — the process does not terminate, contradicting "fatal at
startup, before entering the reconnect loop". -/
theorem c4_counterexample :
    epochInit (some "zz".toList) = .error () ∧
    loopBody true (some "zz".toList) [] = (.retryAfterDelay, []) ∧
    LoopAction.retryAfterDelay ≠ LoopAction.exitProcess := by
  decide

/-- Claim C4 (amended): a malformed statically-configured address is never fatal: it is
parsed at the start of each connection epoch, inside the reconnect loop and after the
WebSocket connect; the resulting error is caught by the loop's blanket handler like any
transport failure, and the bridge retries after the fixed delay.  No iteration of the
loop terminates the process (so the bridge with a bad `--mac` spins forever without
forwarding). -/
theorem c4_amended_never_fatal :
    ∀ (connectOk : Bool) (macOpt : Option (List Char)) (pkts : List (List Nat)),
      (loopBody connectOk macOpt pkts).1 = LoopAction.retryAfterDelay := by
  intro connectOk macOpt pkts
  unfold loopBody
  split_ifs
  · rfl
  · cases h : epochStart macOpt with
    | error e => rfl
    | ok pr => rfl

/-- Claim C8 counterexample: the queue capacity is the literal 2048 at line 72,
identical for two runs whose every configuration value differs — it is not
configurable. -/
theorem c8_counterexample :
    mkBridgeQueue ⟨"ws://a".toList, "tap0".toList, none, false⟩ =
      mkBridgeQueue ⟨"wss://b".toList, "atalk0".toList,
        some "02:00:00:aa:bb:cc".toList, true⟩ ∧
    (mkBridgeQueue ⟨"ws://a".toList, "tap0".toList, none, false⟩).maxsize = 2048 ∧
    (⟨"ws://a".toList, "tap0".toList, none, false⟩ : BridgeArgs) ≠
      ⟨"wss://b".toList, "atalk0".toList, some "02:00:00:aa:bb:cc".toList, true⟩ := by
  decide

/-- Claim C8 (amended): the queue has the fixed, hard-coded (not configurable) capacity
2048; every enqueue attempted on a full queue drops the incoming frame without blocking,
leaves the queue contents unchanged, and the drop is logged. -/
theorem c8_amended_drop_on_full :
    (∀ args : BridgeArgs, mkBridgeQueue args = { maxsize := 2048, items := [] }) ∧
    (∀ (q : PQueue) (pkt : List Nat), queueFull q = true → put_nowait q pkt = (q, true)) := by
  refine ⟨fun _ => rfl, fun q pkt h => ?_⟩
  unfold put_nowait
  rw [if_pos h]

theorem c8_amended_drop_on_full_witness :
    put_nowait { maxsize := 2, items := [[7], [8]] } [9] =
      ({ maxsize := 2, items := [[7], [8]] }, true) :=
  c8_amended_drop_on_full.2 { maxsize := 2, items := [[7], [8]] } [9] (by decide)

/-- Claim C9: every frame the device-to-remote pump forwards goes out as a `"send"`
message whose destination is the colon-hex string of the frame's bytes 0..6 and whose
packetArray is the frame's bytes in order, each an integer in 0..255. -/
theorem c9_send_message_shape :
    ∀ (st : EpochState) (pkt : List Nat),
      is_appletalk pkt = true → (∀ x ∈ pkt, x < 256) →
      (tap_to_ws_step st pkt).2.getLast? =
        some (Msg.send (mac_bytes_to_str (pkt.take 6)) pkt) ∧
      ∀ x ∈ pkt, x ≤ 255 := by
  intro st pkt hA hb
  refine ⟨?_, fun x hx => by have := hb x hx; omega⟩
  unfold tap_to_ws_step
  rw [if_neg (by simp [hA])]
  exact List.getLast?_concat _

theorem c9_send_message_shape_witness :
    (tap_to_ws_step { myMac := none, initSent := false } learnExampleFrame).2.getLast? =
      some (Msg.send (mac_bytes_to_str (learnExampleFrame.take 6)) learnExampleFrame) :=
  (c9_send_message_shape { myMac := none, initSent := false } learnExampleFrame
    (by decide) (by decide)).1
